import Mathlib

/-!
Verification development for the Hexpert backend.

The definitions below are a shallow embedding of the audio buffering and
dispatch pipeline in src/backend/server.js and of the Munchkin responder in
src/games/munchkin.js.  Node Buffers are modelled as lists of bytes, the two
process-wide Maps (clientAudioBuffers and clientProcessingFlags) as functions
from socket ids to optional values, and the emissions of socket.emit as
explicit event lists.  External services (Whisper, GPT, TTS) are modelled as
oracles packaged in a structure, since their behaviour is out of scope.
-/

namespace Hexpert

/-- A chunk of raw audio bytes: one Node Buffer, modelled as its byte list. -/
abbrev Chunk := List Nat

/-!
### Per-session view of the audio-stream handler

server.js lines 195 to 226.  State for one client socket: the accumulated
chunk buffer (the clientAudioBuffers entry), the processing flag (the
clientProcessingFlags entry, set synchronously by transcribeAudio at dispatch
since the async body runs up to its first await), and a ghost history of
dispatched batches (the successive bufferCopy arguments handed to
transcribeAudio).
-/

structure SessionState where
  buffer : List Chunk
  busy : Bool
  dispatched : List (List Chunk)
  deriving DecidableEq, Repr

/-- The audio-stream handler body for one chunk, server.js lines 195 to 226.
If the processing flag is set the handler returns early and the chunk is
dropped.  Otherwise the chunk is pushed; when the buffer reaches 20 entries a
shallow copy is dispatched, the live buffer is reset to empty, and the
processing flag is set by the synchronous prefix of transcribeAudio. -/
def onChunkReceived (s : SessionState) (audioData : Chunk) : SessionState :=
  if s.busy then
    s
  else
    let audioBuffer := s.buffer ++ [audioData]
    if 20 ≤ audioBuffer.length then
      { buffer := [], busy := true, dispatched := s.dispatched ++ [audioBuffer] }
    else
      { buffer := audioBuffer, busy := s.busy, dispatched := s.dispatched }

/-- Events affecting one session: arrival of a chunk, or completion of an
in-flight transcription round (the finally block of transcribeAudio, which
clears the processing flag). -/
inductive SEv where
  | chunk (c : Chunk)
  | finishRound
  deriving DecidableEq, Repr

def stepS (s : SessionState) : SEv → SessionState
  | SEv.chunk c => onChunkReceived s c
  | SEv.finishRound => { s with busy := false }

def runS : SessionState → List SEv → SessionState
  | s, [] => s
  | s, e :: evs => runS (stepS s e) evs

/-- One chunk arrival under the schedule in which any in-flight round has
completed before the chunk arrives, so the busy guard never fires. -/
def fastStep (s : SessionState) (c : Chunk) : SessionState :=
  onChunkReceived { s with busy := false } c

/-- Run a whole chunk sequence under the guard-never-fires schedule. -/
def runFast : SessionState → List Chunk → SessionState
  | s, [] => s
  | s, c :: cs => runFast (fastStep s c) cs

/-- Fresh session state created on connection, server.js lines 190 to 192. -/
def initialSession : SessionState :=
  { buffer := [], busy := false, dispatched := [] }

/-- Pure recurrence describing how a chunk stream is cut into dispatched
batches of 20 and a leftover buffer. -/
def flushSplit : List Chunk → List Chunk → List (List Chunk) × List Chunk
  | buf, [] => ([], buf)
  | buf, c :: cs =>
    if 20 ≤ (buf ++ [c]).length then
      let r := flushSplit [] cs
      ((buf ++ [c]) :: r.1, r.2)
    else
      flushSplit (buf ++ [c]) cs

/-!
### Registry-level model

The two process-wide Maps of server.js lines 36 and 37, modelled as partial
functions from socket ids to values, together with the connect, audio-stream,
disconnect and round-completion handlers acting on them.
-/

structure Registry where
  buffers : String → Option (List Chunk)
  flags : String → Option Bool

/-- Map.set on the modelled registry maps. -/
def upd {α : Type} (m : String → Option α) (k : String) (v : α) :
    String → Option α :=
  fun k2 => if k2 = k then some v else m k2

/-- Map.delete on the modelled registry maps. -/
def rem {α : Type} (m : String → Option α) (k : String) :
    String → Option α :=
  fun k2 => if k2 = k then none else m k2

def emptyRegistry : Registry :=
  { buffers := fun _ => none, flags := fun _ => none }

/-- Connection handler body, server.js lines 190 to 192: fresh empty buffer
and a cleared processing flag for the new socket id. -/
def onConnect (r : Registry) (id : String) : Registry :=
  { buffers := upd r.buffers id [], flags := upd r.flags id false }

/-- Disconnect handler, server.js lines 234 to 239: both entries deleted. -/
def onDisconnect (r : Registry) (id : String) : Registry :=
  { buffers := rem r.buffers id, flags := rem r.flags id }

/-- The finally block of transcribeAudio, server.js line 172: the processing
flag entry for the socket id is set to false. -/
def finishRoundR (r : Registry) (id : String) : Registry :=
  { r with flags := upd r.flags id false }

/-- The audio-stream handler at registry level, server.js lines 195 to 226.
Returns the updated registry and the batch dispatched to transcribeAudio, if
any.  Missing map entries default exactly as in the source: a missing flag
reads as false and a missing buffer as an empty array, and the subsequent
Map.set writes the entry back. -/
def onAudioStream (r : Registry) (id : String) (audioData : Chunk) :
    Registry × Option (List Chunk) :=
  let isProcessing := (r.flags id).getD false
  if isProcessing then
    (r, none)
  else
    let audioBuffer := (r.buffers id).getD []
    let buf := audioBuffer ++ [audioData]
    if 20 ≤ buf.length then
      ({ buffers := upd r.buffers id [], flags := upd r.flags id true }, some buf)
    else
      ({ buffers := upd r.buffers id buf, flags := r.flags }, none)

/-- Registry-level events. -/
inductive REv where
  | connect (id : String)
  | audio (id : String) (c : Chunk)
  | disconnect (id : String)
  | finish (id : String)

def stepR (r : Registry) : REv → Registry
  | REv.connect id => onConnect r id
  | REv.audio id c => (onAudioStream r id c).1
  | REv.disconnect id => onDisconnect r id
  | REv.finish id => finishRoundR r id

def runR : Registry → List REv → Registry
  | r, [] => r
  | r, e :: evs => runR (stepR r e) evs

/-!
### Emitted events and external services

socket.emit calls are modelled as values of an event type, collected in
emission order.  The three external calls are oracles in a structure.
-/

inductive Event where
  | transcription (text : String)
  | aiResponse (question answer : String)
  | ttsAudio (audio : String)
  | error (msg : String)
  deriving DecidableEq, Repr

/-- Outcomes of the three external services for one round: Whisper as a
function of the concatenated audio bytes, GPT and TTS as functions of their
text input.  An error value models a rejected external call. -/
structure Ext where
  whisper : List Nat → Except Unit String
  gpt : String → Except Unit String
  tts : String → Except Unit String

/-- JS String.prototype.trim, stripping whitespace from both ends. -/
def isWhitespaceChar (c : Char) : Bool :=
  c == ' ' || c == '\t' || c == '\n' || c == '\r'

def trimStr (s : String) : String :=
  ⟨((s.data.dropWhile isWhitespaceChar).reverse.dropWhile isWhitespaceChar).reverse⟩

/-- JS String.prototype.toLowerCase restricted to the ASCII range used by the
keyword table. -/
def toLowerCase (s : String) : String :=
  ⟨s.data.map Char.toLower⟩

/-- JS String.prototype.includes: substring search. -/
def startsWithSeq : List Char → List Char → Bool
  | _, [] => true
  | [], _ :: _ => false
  | a :: as, b :: bs => a == b && startsWithSeq as bs

def containsSeq (pat : List Char) : List Char → Bool
  | [] => pat.isEmpty
  | a :: rest => startsWithSeq (a :: rest) pat || containsSeq pat rest

def includes (s pat : String) : Bool :=
  containsSeq pat.data s.data

/-!
### The Munchkin responder, src/games/munchkin.js

The keyword table, the four fixed explanation strings, the default response
and the fallback chain are transcribed verbatim from the source.  The
generative path delegates to the GPT oracle and falls back on failure.
-/

def kwCurse : String := "curse"
def kwCurses : String := "curses"
def kwCombat : String := "combat"
def kwFight : String := "fight"
def kwBattle : String := "battle"
def kwLevel : String := "level"
def kwWin : String := "win"
def kwSetup : String := "setup"
def kwStart : String := "start"

def explainCurseRules : String :=
  "Curse cards can be played on any player at any time, unless the specific curse card states otherwise. Most curses take effect immediately when played. Some curses affect items, others affect the player directly. You cannot curse yourself unless the card specifically allows it."

def explainCombatRules : String :=
  "In combat, add your Level plus your equipment bonuses to fight the monster. If your total equals or exceeds the monster\x27s level, you win! Other players can help you for a share of the treasure. If you lose, you can try to Run Away by rolling 5 or higher on a d6 (Elves need 4+). If you fail to run away, you face the Bad Stuff on the monster card."

def explainLevelingAndWinning : String :=
  "You gain levels primarily by killing monsters - usually 1 level per monster, but some give more. Certain cards can also give you levels. The first player to reach Level 10 wins the game! However, you must reach Level 10 through combat - you cannot win with a card effect or \x27Go Up a Level\x27 card."

def explainGameSetup : String :=
  "Shuffle the Door and Treasure decks separately. Deal 4 Door cards and 4 Treasure cards to each player. Everyone starts at Level 1 with no class or race. The player with the most unusual hair goes first, or roll dice to determine starting player. Place both decks within reach of all players."

def defaultResponseHead : String :=
  "I heard your question about \x22"

def defaultResponseTail : String :=
  "\x22 but I\x27m not sure how to answer that specific Munchkin rule question yet. Could you try rephrasing it, or ask about curses, combat, leveling, or game setup? My knowledge base is still growing!"

/-- getDefaultResponse of munchkin.js: echoes the question verbatim inside a
fixed template. -/
def getDefaultResponse (question : String) : String :=
  defaultResponseHead ++ question ++ defaultResponseTail

/-- processQuestionFallback of munchkin.js: case-insensitive keyword matching
in the fixed order curse, combat, leveling and winning, setup, default. -/
def processQuestionFallback (question : String) : String :=
  let lowerQuestion := toLowerCase question
  if includes lowerQuestion kwCurse || includes lowerQuestion kwCurses then
    explainCurseRules
  else if includes lowerQuestion kwCombat || includes lowerQuestion kwFight
      || includes lowerQuestion kwBattle then
    explainCombatRules
  else if includes lowerQuestion kwLevel || includes lowerQuestion kwWin then
    explainLevelingAndWinning
  else if includes lowerQuestion kwSetup || includes lowerQuestion kwStart then
    explainGameSetup
  else
    getDefaultResponse question

/-- MunchkinExpert.processQuestion: the GPT call with the fixed system prompt
on success returns the trimmed completion text, and any thrown error is
caught and routed to the keyword fallback. -/
def munchkinProcessQuestion (gpt : String → Except Unit String)
    (question : String) : String :=
  match gpt question with
  | Except.ok content => trimStr content
  | Except.error _ => processQuestionFallback question

/-!
### TTS, question processing and the transcription round, server.js
-/

/-- generateTTSAudio, server.js lines 51 to 87: on success the synthesized
audio is emitted as a tts-audio event; any failure is caught, logged only,
and produces no event at all. -/
def generateTTSAudio (ext : Ext) (text : String) : List Event :=
  match ext.tts text with
  | Except.ok audioData => [Event.ttsAudio audioData]
  | Except.error _ => []

/-- processQuestion, server.js lines 92 to 117: the ai-response event is
emitted first, then the TTS generation runs as a detached background task. -/
def processQuestion (ext : Ext) (transcribedText : String) : List Event :=
  let response := munchkinProcessQuestion ext.gpt transcribedText
  Event.aiResponse transcribedText response :: generateTTSAudio ext response

def transcriptionFailedMsg : String := "Transcription failed"

/-- The validBuffers filter of transcribeAudio, server.js line 134: only
non-empty Buffers survive (in this model every chunk is a Buffer). -/
def validBuffers (audioBuffer : List Chunk) : List Chunk :=
  audioBuffer.filter (fun chunk => 0 < chunk.length)

/-- Events emitted by one run of transcribeAudio, server.js lines 122 to 184.
An all-invalid batch throws, and the catch block emits the transcription
failure event; so does a rejected Whisper call.  A blank trimmed transcript
skips both the transcription event and the question processing. -/
def transcribeAudioEvents (ext : Ext) (audioBuffer : List Chunk) : List Event :=
  let valid := validBuffers audioBuffer
  if valid.length = 0 then
    [Event.error transcriptionFailedMsg]
  else
    match ext.whisper valid.flatten with
    | Except.error _ => [Event.error transcriptionFailedMsg]
    | Except.ok text =>
      if trimStr text = "" then
        []
      else
        Event.transcription text :: processQuestion ext text

/-- transcribeAudio: the emitted events paired with the final value of the
processing flag, which the finally block sets to false on every path. -/
def transcribeAudio (ext : Ext) (audioBuffer : List Chunk) :
    List Event × Bool :=
  (transcribeAudioEvents ext audioBuffer, false)

/-!
### Supporting lemmas
-/

/-- The guard-never-fires run is the run of the general event semantics on
the schedule that completes the in-flight round before each chunk arrival. -/
lemma runFast_eq_runS :
    ∀ (cs : List Chunk) (s : SessionState),
      runFast s cs = runS s (cs.flatMap (fun c => [SEv.finishRound, SEv.chunk c])) := by
  intro cs
  induction cs with
  | nil => intro s; rfl
  | cons c cs ih =>
    intro s
    rw [List.flatMap_cons]
    show runFast (fastStep s c) cs = _
    rw [ih (fastStep s c)]
    rfl

/-- Evaluation of the guard-never-fires run in terms of flushSplit. -/
lemma runFast_eval :
    ∀ (cs buf : List Chunk) (b : Bool) (d : List (List Chunk)),
      (runFast ⟨buf, b, d⟩ cs).dispatched = d ++ (flushSplit buf cs).1 ∧
      (runFast ⟨buf, b, d⟩ cs).buffer = (flushSplit buf cs).2 := by
  intro cs
  induction cs with
  | nil => intro buf b d; simp [runFast, flushSplit]
  | cons c cs ih =>
    intro buf b d
    have hsplit : flushSplit buf (c :: cs) =
        if 20 ≤ (buf ++ [c]).length then
          ((buf ++ [c]) :: (flushSplit [] cs).1, (flushSplit [] cs).2)
        else
          flushSplit (buf ++ [c]) cs := by
      simp only [flushSplit]
    by_cases h : 20 ≤ (buf ++ [c]).length
    · have h19 : 19 ≤ buf.length := by simp at h; omega
      have hstep : fastStep ⟨buf, b, d⟩ c = ⟨[], true, d ++ [buf ++ [c]]⟩ := by
        simp [fastStep, onChunkReceived, h19]
      have hrec := ih [] true (d ++ [buf ++ [c]])
      show (runFast (fastStep ⟨buf, b, d⟩ c) cs).dispatched = _ ∧
        (runFast (fastStep ⟨buf, b, d⟩ c) cs).buffer = _
      rw [hstep, hsplit, if_pos h]
      exact ⟨by rw [hrec.1]; simp, hrec.2⟩
    · have h19 : buf.length < 19 := by simp at h; omega
      have hstep : fastStep ⟨buf, b, d⟩ c = ⟨buf ++ [c], false, d⟩ := by
        simp [fastStep, onChunkReceived, h19]
      have hrec := ih (buf ++ [c]) false d
      show (runFast (fastStep ⟨buf, b, d⟩ c) cs).dispatched = _ ∧
        (runFast (fastStep ⟨buf, b, d⟩ c) cs).buffer = _
      rw [hstep, hsplit, if_neg h]
      exact hrec

/-- Concatenating the batches produced by flushSplit and its leftover buffer
recovers the input stream: nothing lost, duplicated or reordered. -/
lemma flushSplit_flatten :
    ∀ (cs buf : List Chunk),
      ((flushSplit buf cs).1).flatten ++ (flushSplit buf cs).2 = buf ++ cs := by
  intro cs
  induction cs with
  | nil => intro buf; simp [flushSplit]
  | cons c cs ih =>
    intro buf
    have hsplit : flushSplit buf (c :: cs) =
        if 20 ≤ (buf ++ [c]).length then
          ((buf ++ [c]) :: (flushSplit [] cs).1, (flushSplit [] cs).2)
        else
          flushSplit (buf ++ [c]) cs := by
      simp only [flushSplit]
    by_cases h : 20 ≤ (buf ++ [c]).length
    · rw [hsplit, if_pos h]
      have := ih []
      simp only [List.nil_append] at this
      simp [this]
    · rw [hsplit, if_neg h]
      rw [ih (buf ++ [c])]
      simp

/-- Every batch produced by flushSplit from a buffer shorter than the
threshold has exactly 20 chunks. -/
lemma flushSplit_batch_len :
    ∀ (cs buf : List Chunk), buf.length ≤ 19 →
      ∀ bch ∈ (flushSplit buf cs).1, bch.length = 20 := by
  intro cs
  induction cs with
  | nil => intro buf _ bch hm; simp [flushSplit] at hm
  | cons c cs ih =>
    intro buf hbuf bch hm
    have hsplit : flushSplit buf (c :: cs) =
        if 20 ≤ (buf ++ [c]).length then
          ((buf ++ [c]) :: (flushSplit [] cs).1, (flushSplit [] cs).2)
        else
          flushSplit (buf ++ [c]) cs := by
      simp only [flushSplit]
    by_cases h : 20 ≤ (buf ++ [c]).length
    · rw [hsplit, if_pos h] at hm
      simp only [List.mem_cons] at hm
      rcases hm with hm | hm
      · subst hm; simp at h ⊢; omega
      · exact ih [] (by simp) bch hm
    · rw [hsplit, if_neg h] at hm
      have hlen : (buf ++ [c]).length ≤ 19 := by simp at h ⊢; omega
      exact ih (buf ++ [c]) hlen bch hm

/-- Counting lemma for flushSplit: starting below the threshold, the number
of batches is the quotient of the total chunk count by 20 and the leftover
buffer length is the remainder. -/
lemma flushSplit_count :
    ∀ (cs buf : List Chunk), buf.length ≤ 19 →
      ((flushSplit buf cs).1).length = (buf.length + cs.length) / 20 ∧
      ((flushSplit buf cs).2).length = (buf.length + cs.length) % 20 := by
  intro cs
  induction cs with
  | nil =>
    intro buf hbuf
    constructor
    · simp [flushSplit]; omega
    · simp [flushSplit]; omega
  | cons c cs ih =>
    intro buf hbuf
    have hsplit : flushSplit buf (c :: cs) =
        if 20 ≤ (buf ++ [c]).length then
          ((buf ++ [c]) :: (flushSplit [] cs).1, (flushSplit [] cs).2)
        else
          flushSplit (buf ++ [c]) cs := by
      simp only [flushSplit]
    by_cases h : 20 ≤ (buf ++ [c]).length
    · have hb : buf.length = 19 := by simp at h; omega
      have hrec := ih [] (by simp)
      simp only [List.length_nil, Nat.zero_add] at hrec
      rw [hsplit, if_pos h]
      constructor
      · simp [hrec.1, hb]; omega
      · simp [hrec.2, hb]; omega
    · have hlen : (buf ++ [c]).length ≤ 19 := by simp at h ⊢; omega
      have hrec := ih (buf ++ [c]) hlen
      simp only [List.length_append, List.length_cons, List.length_nil] at hrec
      rw [hsplit, if_neg h]
      constructor
      · rw [hrec.1]; simp; omega
      · rw [hrec.2]; simp; omega

/-- Flattening a list of lists of constant length 20. -/
lemma flatten_length_const :
    ∀ (L : List (List Chunk)), (∀ x ∈ L, x.length = 20) →
      L.flatten.length = 20 * L.length := by
  intro L
  induction L with
  | nil => intro _; simp
  | cons a L ih =>
    intro h
    have ha : a.length = 20 := h a (by simp)
    have hL := ih (fun x hx => h x (by simp [hx]))
    simp [ha, hL]; ring

/-- Chunks inside dispatched batches originate in the starting dispatched
history, the starting buffer, or the chunk events of the trace. -/
lemma mem_dispatched_runS :
    ∀ (evs : List SEv) (s : SessionState) (x : Chunk),
      x ∈ (runS s evs).dispatched.flatten →
      x ∈ s.dispatched.flatten ∨ x ∈ s.buffer ∨ SEv.chunk x ∈ evs := by
  intro evs
  induction evs with
  | nil => intro s x h; exact Or.inl h
  | cons e evs ih =>
    intro s x h
    have h2 := ih (stepS s e) x h
    cases e with
    | finishRound =>
      rcases h2 with h2 | h2 | h2
      · exact Or.inl h2
      · exact Or.inr (Or.inl h2)
      · exact Or.inr (Or.inr (by simp [h2]))
    | chunk c =>
      by_cases hb : s.busy = true
      · simp only [stepS, onChunkReceived, if_pos hb] at h2
        rcases h2 with h2 | h2 | h2
        · exact Or.inl h2
        · exact Or.inr (Or.inl h2)
        · exact Or.inr (Or.inr (by simp [h2]))
      · by_cases ht : 20 ≤ (s.buffer ++ [c]).length
        · simp only [stepS, onChunkReceived, if_neg hb, if_pos ht] at h2
          rcases h2 with h2 | h2 | h2
          · simp only [List.flatten_append] at h2
            rcases List.mem_append.mp h2 with h3 | h3
            · exact Or.inl h3
            · simp at h3
              rcases h3 with h3 | h3
              · exact Or.inr (Or.inl h3)
              · exact Or.inr (Or.inr (by simp [h3]))
          · simp at h2
          · exact Or.inr (Or.inr (by simp [h2]))
        · simp only [stepS, onChunkReceived, if_neg hb, if_neg ht] at h2
          rcases h2 with h2 | h2 | h2
          · exact Or.inl h2
          · rcases List.mem_append.mp h2 with h3 | h3
            · exact Or.inr (Or.inl h3)
            · simp at h3
              exact Or.inr (Or.inr (by simp [h3]))
          · exact Or.inr (Or.inr (by simp [h2]))

/-- Bound on every live buffer in the registry. -/
def BufBound (r : Registry) : Prop :=
  ∀ (id : String) (buf : List Chunk), r.buffers id = some buf → buf.length ≤ 19

lemma stepR_bufBound (r : Registry) (e : REv) (h : BufBound r) :
    BufBound (stepR r e) := by
  cases e with
  | connect i =>
    intro id buf hbuf
    simp only [stepR, onConnect, upd] at hbuf
    by_cases hid : id = i
    · simp [hid] at hbuf; subst hbuf; simp
    · simp [hid] at hbuf; exact h id buf hbuf
  | disconnect i =>
    intro id buf hbuf
    simp only [stepR, onDisconnect, rem] at hbuf
    by_cases hid : id = i
    · simp [hid] at hbuf
    · simp [hid] at hbuf; exact h id buf hbuf
  | finish i =>
    intro id buf hbuf
    exact h id buf hbuf
  | audio i c =>
    intro id buf hbuf
    by_cases hp : (r.flags i).getD false = true
    · simp only [stepR, onAudioStream, if_pos hp] at hbuf
      exact h id buf hbuf
    · by_cases ht : 20 ≤ (((r.buffers i).getD []) ++ [c]).length
      · simp only [stepR, onAudioStream, if_neg hp, if_pos ht, upd] at hbuf
        by_cases hid : id = i
        · simp [hid] at hbuf; subst hbuf; simp
        · simp [hid] at hbuf; exact h id buf hbuf
      · simp only [stepR, onAudioStream, if_neg hp, if_neg ht, upd] at hbuf
        by_cases hid : id = i
        · simp [hid] at hbuf
          have : (((r.buffers i).getD []) ++ [c]).length ≤ 19 := by
            simp at ht ⊢; omega
          simpa [← hbuf] using this
        · simp [hid] at hbuf; exact h id buf hbuf

lemma runR_bufBound :
    ∀ (evs : List REv) (r : Registry), BufBound r → BufBound (runR r evs) := by
  intro evs
  induction evs with
  | nil => intro r hr; exact hr
  | cons e evs ih => intro r hr; exact ih _ (stepR_bufBound r e hr)

/-!
### Claim theorems
-/

/-- C1: for every sequence of at least 20 non-empty chunks appended to one
session with no intervening flush and with the busy guard never firing, the
pipeline dispatches exactly one batch per 20 chunks; the concatenation of the
dispatched batches followed by the live buffer is exactly the arrival
sequence, so each batch is an exact, exclusive snapshot in arrival order with
no chunk duplicated or dropped; and whenever a flush fires, the snapshot is
taken and the live buffer is reset to empty in the same atomic step. -/
theorem claim_C1_batch_dispatch (cs : List Chunk)
    (h20 : 20 ≤ cs.length) (hne : ∀ c ∈ cs, c ≠ ([] : Chunk)) :
    (runFast initialSession cs).dispatched.length = cs.length / 20 ∧
    (∀ bch ∈ (runFast initialSession cs).dispatched, bch.length = 20) ∧
    (runFast initialSession cs).dispatched.flatten ++
      (runFast initialSession cs).buffer = cs ∧
    (runFast initialSession cs).dispatched.flatten =
      cs.take (20 * (cs.length / 20)) ∧
    (runFast initialSession cs).buffer = cs.drop (20 * (cs.length / 20)) ∧
    (∀ (t : SessionState) (c : Chunk), t.busy = false →
      20 ≤ (t.buffer ++ [c]).length →
      onChunkReceived t c =
        { buffer := [], busy := true,
          dispatched := t.dispatched ++ [t.buffer ++ [c]] }) := by
  have heval := runFast_eval cs [] false []
  have hd : (runFast initialSession cs).dispatched = (flushSplit [] cs).1 := by
    simpa [initialSession] using heval.1
  have hb : (runFast initialSession cs).buffer = (flushSplit [] cs).2 := by
    simpa [initialSession] using heval.2
  have hcount := flushSplit_count cs [] (by simp)
  simp only [List.length_nil, Nat.zero_add] at hcount
  have hlen : ∀ bch ∈ (flushSplit [] cs).1, bch.length = 20 :=
    flushSplit_batch_len cs [] (by simp)
  have hflat := flushSplit_flatten cs []
  simp only [List.nil_append] at hflat
  have hflatlen : ((flushSplit [] cs).1).flatten.length = 20 * (cs.length / 20) := by
    rw [flatten_length_const _ hlen, hcount.1]
  refine ⟨by rw [hd, hcount.1], by rw [hd]; exact hlen, by rw [hd, hb]; exact hflat,
    ?_, ?_, ?_⟩
  · obtain ⟨A, hA⟩ : ∃ A, ((flushSplit [] cs).1).flatten = A := ⟨_, rfl⟩
    rw [hA] at hflat hflatlen
    rw [hd, hA, ← hflatlen, ← hflat, List.take_left]
  · obtain ⟨A, hA⟩ : ∃ A, ((flushSplit [] cs).1).flatten = A := ⟨_, rfl⟩
    obtain ⟨B, hB⟩ : ∃ B, (flushSplit [] cs).2 = B := ⟨_, rfl⟩
    rw [hA, hB] at hflat
    rw [hA] at hflatlen
    rw [hb, hB, ← hflatlen, ← hflat, List.drop_left]
  · intro t c hbusy hthr
    have h19 : 19 ≤ t.buffer.length := by simp at hthr; omega
    simp [onChunkReceived, hbusy, h19]

theorem claim_C1_batch_dispatch_witness :
    (runFast initialSession (List.replicate 20 ([0] : Chunk))).dispatched.length =
      (List.replicate 20 ([0] : Chunk)).length / 20 :=
  (claim_C1_batch_dispatch (List.replicate 20 ([0] : Chunk)) (by decide)
    (by decide)).1

/-- C2: at most one transcription round is in flight per session.  While the
busy flag is true the handler drops the chunk without touching the state, so
no chunk is buffered and no second flush can be dispatched; and any step that
dispatches a batch starts from a non-busy state and sets busy in that same
step, so two rounds for the same session never overlap. -/
theorem claim_C2_single_round (s : SessionState) (c : Chunk) :
    (s.busy = true → onChunkReceived s c = s) ∧
    ((onChunkReceived s c).dispatched ≠ s.dispatched →
      s.busy = false ∧ (onChunkReceived s c).busy = true ∧
      (onChunkReceived s c).buffer = []) := by
  constructor
  · intro hb; simp [onChunkReceived, hb]
  · intro hch
    by_cases hb : s.busy = true
    · simp [onChunkReceived, hb] at hch
    · have hb2 : s.busy = false := by simpa using hb
      by_cases ht : 19 ≤ s.buffer.length
      · simp [onChunkReceived, hb2, ht]
      · simp [onChunkReceived, hb2, ht] at hch

theorem claim_C2_single_round_witness :
    onChunkReceived ⟨[], true, []⟩ [5] = ⟨[], true, []⟩ :=
  (claim_C2_single_round ⟨[], true, []⟩ [5]).1 rfl

/-- C4: under the guarded policy, a chunk that arrives while the session is
busy is dropped without being buffered: the state is unchanged, the rest of
the trace proceeds exactly as if the chunk had never arrived, and when the
dropped chunk is not already present in the session state and is not
delivered again later, it never appears in any dispatched batch. -/
theorem claim_C4_busy_chunk_dropped (s : SessionState) (c : Chunk)
    (evs : List SEv) (hb : s.busy = true) :
    onChunkReceived s c = s ∧
    runS s (SEv.chunk c :: evs) = runS s evs ∧
    (c ∉ s.buffer → c ∉ s.dispatched.flatten →
      (∀ x ∈ evs, x ≠ SEv.chunk c) →
      c ∉ (runS s (SEv.chunk c :: evs)).dispatched.flatten) := by
  have h1 : onChunkReceived s c = s := by simp [onChunkReceived, hb]
  have h2 : runS s (SEv.chunk c :: evs) = runS s evs := by
    show runS (stepS s (SEv.chunk c)) evs = runS s evs
    simp [stepS, h1]
  refine ⟨h1, h2, ?_⟩
  intro hbuf hdisp hevs hmem
  rw [h2] at hmem
  rcases mem_dispatched_runS evs s c hmem with hx | hx | hx
  · exact hdisp hx
  · exact hbuf hx
  · exact hevs _ hx rfl

theorem claim_C4_busy_chunk_dropped_witness :
    runS ⟨[], true, []⟩ [SEv.chunk [7]] = runS ⟨[], true, []⟩ [] :=
  (claim_C4_busy_chunk_dropped ⟨[], true, []⟩ [7] [] rfl).2.1

/-- C10: in every state of the session registry reachable from the empty
registry between event-handler invocations, every live buffer holds at most
19 chunks; and an append that brings a non-busy session to the threshold
dispatches the full snapshot and resets that buffer to empty in the same
atomic handler step. -/
theorem claim_C10_buffer_bound (evs : List REv) (id : String)
    (buf : List Chunk) (h : (runR emptyRegistry evs).buffers id = some buf) :
    buf.length ≤ 19 ∧
    (∀ (r : Registry) (i : String) (c : Chunk),
      (r.flags i).getD false = false →
      20 ≤ ((r.buffers i).getD [] ++ [c]).length →
      (onAudioStream r i c).1.buffers i = some [] ∧
      (onAudioStream r i c).2 = some ((r.buffers i).getD [] ++ [c])) := by
  constructor
  · exact runR_bufBound evs emptyRegistry
      (by intro i b hb; simp [emptyRegistry] at hb) id buf h
  · intro r i c hflag hthr
    have hp : ¬((r.flags i).getD false = true) := by simp [hflag]
    constructor
    · simp only [onAudioStream, if_neg hp, if_pos hthr, upd]
      simp
    · simp only [onAudioStream, if_neg hp, if_pos hthr]

def sidA : String := "a"

theorem claim_C10_buffer_bound_witness :
    ([[1]] : List Chunk).length ≤ 19 :=
  (claim_C10_buffer_bound [REv.connect sidA, REv.audio sidA [1]] sidA [[1]]
    (by decide)).1

/-- C9 counterexample: connect a session, disconnect it (both map entries
are deleted), then deliver one chunk for the now-unknown id.  Before the
chunk the registry holds no state for the id; the handler then recreates a
buffer entry containing the chunk, so the event is not a no-op and session
state is left behind, contradicting the claim. -/
theorem claim_C9_counterexample :
    (onDisconnect (onConnect emptyRegistry sidA) sidA).buffers sidA = none ∧
    (onDisconnect (onConnect emptyRegistry sidA) sidA).flags sidA = none ∧
    ((onAudioStream (onDisconnect (onConnect emptyRegistry sidA) sidA)
        sidA [1]).1).buffers sidA = some [[1]] := by
  refine ⟨by decide, by decide, by decide⟩

/-- C9 amended: a chunk event for an unknown session id does not crash the
total handler and dispatches nothing, but it is not a no-op: the missing flag
reads as false and the missing buffer as empty, the chunk is appended, and
the Map.set call recreates a buffer entry for the id containing the chunk,
while the flag map is left without an entry. -/
theorem claim_C9_unknown_session (r : Registry) (id : String) (c : Chunk)
    (hb : r.buffers id = none) (hf : r.flags id = none) :
    (onAudioStream r id c).2 = none ∧
    ((onAudioStream r id c).1).buffers id = some [c] ∧
    ((onAudioStream r id c).1).flags = r.flags := by
  have hp : ¬((r.flags id).getD false = true) := by simp [hf]
  have hthr : ¬(20 ≤ ((r.buffers id).getD [] ++ [c]).length) := by
    simp [hb]
  refine ⟨?_, ?_, ?_⟩
  · simp only [onAudioStream, if_neg hp, if_neg hthr]
  · simp only [onAudioStream, if_neg hp, if_neg hthr, upd]
    simp [hb]
  · simp only [onAudioStream, if_neg hp, if_neg hthr]

def sidT : String := "t"

theorem claim_C9_unknown_session_witness :
    ((onAudioStream emptyRegistry sidT [2]).1).buffers sidT = some [[2]] :=
  (claim_C9_unknown_session emptyRegistry sidT [2] rfl rfl).2.1

/-- C3: after a dispatched transcription round completes, whichever way the
external calls went, the finally block leaves the processing flag false, and
with the flag in that state a full buffer accepts a new dispatch: the next
threshold-reaching chunk produces a new batch. -/
theorem claim_C3_busy_always_reset (ext : Ext) (batch : List Chunk) :
    (transcribeAudio ext batch).2 = false ∧
    (∀ (d : List (List Chunk)),
      (onChunkReceived
          ⟨List.replicate 19 ([0] : Chunk), (transcribeAudio ext batch).2, d⟩
          ([0] : Chunk)).dispatched = d ++ [List.replicate 20 ([0] : Chunk)]) := by
  refine ⟨rfl, ?_⟩
  intro d
  show (onChunkReceived ⟨List.replicate 19 ([0] : Chunk), false, d⟩ _).dispatched = _
  simp [onChunkReceived, ← List.replicate_succ']

/-- C5 counterexample: a zero-length chunk delivered to a fresh non-busy
session is appended to the buffer rather than discarded, and it counts
toward the flush threshold: nineteen one-byte chunks followed by one empty
chunk trigger a dispatch whose batch contains the empty chunk. -/
theorem claim_C5_counterexample :
    initialSession.busy = false ∧
    (onChunkReceived initialSession ([] : Chunk)).buffer = [([] : Chunk)] ∧
    (runFast initialSession
        (List.replicate 19 ([0] : Chunk) ++ [([] : Chunk)])).dispatched =
      [List.replicate 19 ([0] : Chunk) ++ [([] : Chunk)]] := by
  refine ⟨rfl, by decide, by decide⟩

/-- C5 amended: an empty chunk arriving on a non-busy session is appended to
the buffer like any other chunk and counts toward the 20-chunk flush
threshold; empty chunks are instead discarded inside the dispatched
transcription round, whose validBuffers filter removes them before
concatenation, so a batch behaves exactly like its restriction to non-empty
chunks. -/
theorem claim_C5_empty_chunk_buffered (s : SessionState) (c : Chunk)
    (hb : s.busy = false) (hlen : (s.buffer ++ [c]).length < 20) :
    (onChunkReceived s c).buffer = s.buffer ++ [c] ∧
    (∀ (batch : List Chunk), ([] : Chunk) ∉ validBuffers batch) ∧
    (∀ (ext : Ext) (batch : List Chunk),
      transcribeAudio ext batch = transcribeAudio ext (validBuffers batch)) := by
  refine ⟨?_, ?_, ?_⟩
  · have h19 : ¬(19 ≤ s.buffer.length) := by simp at hlen; omega
    simp [onChunkReceived, hb, h19]
  · intro batch hmem
    simp [validBuffers] at hmem
  · intro ext batch
    have hval : validBuffers (validBuffers batch) = validBuffers batch := by
      simp [validBuffers, List.filter_filter]
    simp [transcribeAudio, transcribeAudioEvents, hval]

theorem claim_C5_empty_chunk_buffered_witness :
    (onChunkReceived initialSession ([] : Chunk)).buffer =
      initialSession.buffer ++ [([] : Chunk)] :=
  (claim_C5_empty_chunk_buffered initialSession [] rfl (by decide)).1

def sampleText : String := "hello"
def sampleAnswer : String := "answer"
def sampleAudio : String := "mp3"
def blankText : String := " "

/-- An external-service behaviour in which every call succeeds. -/
def extOk : Ext :=
  { whisper := fun _ => Except.ok sampleText
  , gpt := fun _ => Except.ok sampleAnswer
  , tts := fun _ => Except.ok sampleAudio }

/-- An external-service behaviour whose Whisper call recognizes only
whitespace. -/
def extBlank : Ext :=
  { whisper := fun _ => Except.ok blankText
  , gpt := fun _ => Except.ok sampleAnswer
  , tts := fun _ => Except.ok sampleAudio }

/-- An external-service behaviour whose TTS call fails. -/
def extTTSFail : Ext :=
  { whisper := fun _ => Except.ok sampleText
  , gpt := fun _ => Except.ok sampleAnswer
  , tts := fun _ => Except.error () }

/-- C6 counterexample: a dispatched batch containing one empty chunk and no
valid data is not silently absorbed; the thrown validation error is caught
by the transcription error handler, which emits a user-visible error event
to the session. -/
theorem claim_C6_counterexample :
    (transcribeAudio extOk [([] : Chunk)]).1 =
      [Event.error transcriptionFailedMsg] := rfl

/-- C6 amended: a blank (empty or all-whitespace) recognized transcript is
silently absorbed: no event is emitted and no Responder call is made that
round.  A dispatched batch with no valid non-empty chunks, however, is not
silent: the thrown validation error is caught and the Transcription failed
error event is emitted, again with no transcript notification and no
Responder call. -/
theorem claim_C6_empty_input (ext : Ext) (batch : List Chunk) (text : String) :
    (validBuffers batch = [] →
      transcribeAudio ext batch = ([Event.error transcriptionFailedMsg], false)) ∧
    (validBuffers batch ≠ [] →
      ext.whisper (validBuffers batch).flatten = Except.ok text →
      trimStr text = "" →
      transcribeAudio ext batch = ([], false)) := by
  constructor
  · intro hv
    simp [transcribeAudio, transcribeAudioEvents, hv]
  · intro hv hw htrim
    have hlen : ¬((validBuffers batch).length = 0) := by
      simpa [List.length_eq_zero] using hv
    simp [transcribeAudio, transcribeAudioEvents, hlen, hw, htrim]

theorem claim_C6_empty_input_witness :
    transcribeAudio extBlank [[1]] = ([], false) :=
  (claim_C6_empty_input extBlank [[1]] blankText).2 (by decide) rfl (by decide)

def combatQuestion : String := "How does combat work?"
def weatherQuestion : String := "what is the weather"

set_option maxRecDepth 20000

/-- C7: when the generative path fails, the answer is the deterministic
keyword fallback, whose checks run case-insensitively in the fixed order
curse, combat, leveling and winning, setup, with the first match winning;
the question about combat returns the fixed combat explanation, and a
question matching no category returns the default message that embeds the
original question verbatim between two fixed fragments. -/
theorem claim_C7_fallback (question : String) :
    munchkinProcessQuestion (fun _ => Except.error ()) question =
      processQuestionFallback question ∧
    ((includes (toLowerCase question) kwCurse
        || includes (toLowerCase question) kwCurses) = true →
      processQuestionFallback question = explainCurseRules) ∧
    ((includes (toLowerCase question) kwCurse
        || includes (toLowerCase question) kwCurses) = false →
      (includes (toLowerCase question) kwCombat
        || includes (toLowerCase question) kwFight
        || includes (toLowerCase question) kwBattle) = true →
      processQuestionFallback question = explainCombatRules) ∧
    ((includes (toLowerCase question) kwCurse
        || includes (toLowerCase question) kwCurses) = false →
      (includes (toLowerCase question) kwCombat
        || includes (toLowerCase question) kwFight
        || includes (toLowerCase question) kwBattle) = false →
      (includes (toLowerCase question) kwLevel
        || includes (toLowerCase question) kwWin) = true →
      processQuestionFallback question = explainLevelingAndWinning) ∧
    ((includes (toLowerCase question) kwCurse
        || includes (toLowerCase question) kwCurses) = false →
      (includes (toLowerCase question) kwCombat
        || includes (toLowerCase question) kwFight
        || includes (toLowerCase question) kwBattle) = false →
      (includes (toLowerCase question) kwLevel
        || includes (toLowerCase question) kwWin) = false →
      (includes (toLowerCase question) kwSetup
        || includes (toLowerCase question) kwStart) = true →
      processQuestionFallback question = explainGameSetup) ∧
    ((includes (toLowerCase question) kwCurse
        || includes (toLowerCase question) kwCurses) = false →
      (includes (toLowerCase question) kwCombat
        || includes (toLowerCase question) kwFight
        || includes (toLowerCase question) kwBattle) = false →
      (includes (toLowerCase question) kwLevel
        || includes (toLowerCase question) kwWin) = false →
      (includes (toLowerCase question) kwSetup
        || includes (toLowerCase question) kwStart) = false →
      processQuestionFallback question = getDefaultResponse question) ∧
    processQuestionFallback combatQuestion = explainCombatRules ∧
    getDefaultResponse question =
      defaultResponseHead ++ question ++ defaultResponseTail := by
  refine ⟨rfl, ?_, ?_, ?_, ?_, ?_, by decide, rfl⟩
  · intro h1
    simp only [processQuestionFallback, h1, if_true]
  · intro h1 h2
    simp only [processQuestionFallback, h1, h2, if_true, Bool.false_eq_true,
      if_false]
  · intro h1 h2 h3
    simp only [processQuestionFallback, h1, h2, h3, if_true,
      Bool.false_eq_true, if_false]
  · intro h1 h2 h3 h4
    simp only [processQuestionFallback, h1, h2, h3, h4, if_true,
      Bool.false_eq_true, if_false]
  · intro h1 h2 h3 h4
    simp only [processQuestionFallback, h1, h2, h3, h4, Bool.false_eq_true,
      if_false]

theorem claim_C7_fallback_witness :
    processQuestionFallback weatherQuestion =
      getDefaultResponse weatherQuestion :=
  (claim_C7_fallback weatherQuestion).2.2.2.2.2.1 (by decide) (by decide)
    (by decide) (by decide)

/-- C8: for every answered question the text answer is emitted first and the
speech synthesis runs afterwards as a detached task; no error event is ever
emitted by this path, and a synthesis failure leaves exactly the already
emitted text answer, retracting nothing. -/
theorem claim_C8_tts_after_text (ext : Ext) (q : String) :
    processQuestion ext q =
      Event.aiResponse q (munchkinProcessQuestion ext.gpt q) ::
        generateTTSAudio ext (munchkinProcessQuestion ext.gpt q) ∧
    (∀ (m : String), Event.error m ∉ processQuestion ext q) ∧
    (ext.tts (munchkinProcessQuestion ext.gpt q) = Except.error () →
      processQuestion ext q =
        [Event.aiResponse q (munchkinProcessQuestion ext.gpt q)]) := by
  refine ⟨rfl, ?_, ?_⟩
  · intro m hm
    simp only [processQuestion, generateTTSAudio] at hm
    rcases hx : ext.tts (munchkinProcessQuestion ext.gpt q) with a | a
    · rw [hx] at hm; simp at hm
    · rw [hx] at hm; simp at hm
  · intro hfail
    simp [processQuestion, generateTTSAudio, hfail]

theorem claim_C8_tts_after_text_witness :
    processQuestion extTTSFail sampleText =
      [Event.aiResponse sampleText
        (munchkinProcessQuestion extTTSFail.gpt sampleText)] :=
  (claim_C8_tts_after_text extTTSFail sampleText).2.2 rfl

end Hexpert
